import Mathlib

/-!
Shallow embedding of `workers/message_insights_worker/message_insights_worker.py`
(the `message_analysis_model` method of `MessageInsightsWorker`), the incremental
statistical analysis pipeline of the augur message-insights worker.

Modelling conventions:
* Timestamps are integers at day granularity (`Int`).  The source manipulates
  `datetime` values; every operation the claims touch (the strict cutoff
  comparison, `datetime.combine(ts - timedelta(days=insight_days), time.min)`,
  and `pd.Grouper` binning with frequencies `1D` / `15D`) is day-aligned, so an
  integer day count is a faithful carrier.
* Python floats are modelled by `PyFloat`: an exact rational together with the
  IEEE special values `inf`, `-inf`, `nan`, with the arithmetic and comparison
  cases the pipeline exercises (division by zero, NaN propagation,
  comparisons that are false on NaN).  Collaborator-supplied scalar scores
  (reconstruction errors, sentiment scores, the Otsu threshold) are modelled as
  exact rationals: no claim depends on rounding.
* External collaborators (the novelty model `novelty_analysis`, the sentiment
  model `get_senti_score`, skimage's `threshold_otsu`, sklearn's
  `IsolationForest`, and the SQL query layer) are modelled at their boundary as
  fields of the environment `Env`, exactly as the spec scopes them.  The
  database contents read by the queries are `Env` fields; the rows the worker
  writes are the pipeline's outputs.
* Per-row insertion failures (`self.db.execute` raising) are modelled by a
  failure predicate on the row being inserted.
-/

/-- Python-float carrier: exact rationals plus the IEEE special values. -/
inductive PyFloat : Type where
  | fin (q : ℚ)
  | inf
  | ninf
  | nan
deriving DecidableEq, Repr

namespace PyFloat

/-- IEEE-style subtraction, on the cases the pipeline exercises.
`nan` propagates; `inf - inf = nan`. -/
def sub : PyFloat → PyFloat → PyFloat
  | nan, _ => nan
  | _, nan => nan
  | fin a, fin b => fin (a - b)
  | fin _, inf => ninf
  | fin _, ninf => inf
  | inf, fin _ => inf
  | inf, inf => nan
  | inf, ninf => inf
  | ninf, fin _ => ninf
  | ninf, inf => ninf
  | ninf, ninf => nan

/-- IEEE-style addition. -/
def add : PyFloat → PyFloat → PyFloat
  | nan, _ => nan
  | _, nan => nan
  | fin a, fin b => fin (a + b)
  | fin _, inf => inf
  | fin _, ninf => ninf
  | inf, fin _ => inf
  | inf, inf => inf
  | inf, ninf => nan
  | ninf, fin _ => ninf
  | ninf, inf => nan
  | ninf, ninf => ninf

/-- IEEE-style multiplication: `0 * inf = nan`, signs handled. -/
def mul : PyFloat → PyFloat → PyFloat
  | nan, _ => nan
  | _, nan => nan
  | fin a, fin b => fin (a * b)
  | fin a, inf => if a = 0 then nan else if 0 < a then inf else ninf
  | fin a, ninf => if a = 0 then nan else if 0 < a then ninf else inf
  | inf, fin b => if b = 0 then nan else if 0 < b then inf else ninf
  | inf, inf => inf
  | inf, ninf => ninf
  | ninf, fin b => if b = 0 then nan else if 0 < b then ninf else inf
  | ninf, inf => ninf
  | ninf, ninf => inf

/-- IEEE-style (numpy) division: finite/0 gives a signed infinity, `0/0 = nan`,
infinities divided by finite values keep their sign, `inf/inf = nan`. -/
def div : PyFloat → PyFloat → PyFloat
  | nan, _ => nan
  | _, nan => nan
  | fin a, fin b =>
      if b = 0 then (if a = 0 then nan else if 0 < a then inf else ninf)
      else fin (a / b)
  | fin _, inf => fin 0
  | fin _, ninf => fin 0
  | inf, fin b => if 0 ≤ b then inf else ninf
  | ninf, fin b => if 0 ≤ b then ninf else inf
  | inf, inf => nan
  | inf, ninf => nan
  | ninf, inf => nan
  | ninf, ninf => nan

/-- `True` exactly on finite values (`math.isfinite`). -/
def isFinite : PyFloat → Bool
  | fin _ => true
  | _ => false

end PyFloat

/-- A candidate message row as fetched by the worker's `join_SQL` query:
`msg_id`, `msg_timestamp`, `msg_text`. -/
structure Msg where
  msg_id : Nat
  ts : Int
  text : String
deriving DecidableEq, Repr

/-- Sentiment label returned by the sentiment collaborator `get_senti_score`
(spec §4.3: categorical label -1 negative / 0 neutral / 1 positive). -/
inductive SLabel : Type where
  | neg
  | neu
  | pos
deriving DecidableEq, Repr, Fintype

/-- The label rename applied by
`rename(columns={-1:'Negative', 0:'Neutral', 1:'Positive'})`. -/
def slabelName : SLabel → String
  | .neg => "Negative"
  | .neu => "Neutral"
  | .pos => "Positive"

/-- The label rename applied by `rename(columns={0:'Normal', 1:'Novel'})`;
the pipeline only ever produces the labels 0 and 1. -/
def nlabelName : Nat → String
  | 0 => "Normal"
  | 1 => "Novel"
  | n => toString n

/-- A historical `message_analysis` row as read by `merge_SQL`:
`novelty_flag` and `reconstruction_error`. -/
structure HistRec where
  novelty_flag : Nat
  reconstruction_error : ℚ
deriving DecidableEq, Repr

/-- A historical `message_analysis_summary` row as read back by
`get_table_values(cols=['period','positive_ratio','negative_ratio','novel_count'], ...)`. -/
structure HRow where
  period : Int
  positive_ratio : PyFloat
  negative_ratio : PyFloat
  novel_count : PyFloat
deriving DecidableEq, Repr

/-- The parameter tuple handed to `sklearn.ensemble.IsolationForest` at
line 372 of the source. -/
structure IFParams where
  n_estimators : Nat
  max_samples_auto : Bool
  max_features : ℚ
  bootstrap : Bool
  n_jobs : Int
  random_state : Nat
  verbose : Nat
deriving DecidableEq, Repr

/-- The environment of one invocation of `message_analysis_model`: the
database contents the queries read, the configuration, and the external
scoring collaborators at their boundary (spec §6).  The collaborators are
deterministic functions, as the spec's reproducibility contract demands
(fixed random seed, no persisted model state). -/
structure Env where
  /-- `repo_id` argument of the run. -/
  repoId : Nat
  /-- Result of `repo_exists_SQL`: does a `message_analysis_summary` row exist. -/
  summaryExists : Bool
  /-- Timestamps of already-analyzed messages of the repo (`past_SQL`). -/
  pastAnalyzedTs : List Int
  /-- All messages of the repo (`join_SQL` without the timestamp restriction). -/
  messages : List Msg
  /-- Historical `message_analysis` rows of the repo (`merge_SQL`). -/
  histRecords : List HistRec
  /-- Historical `message_analysis_summary` rows of the repo, in table order. -/
  pastSummaries : List HRow
  /-- `get_max_id('message_analysis', 'worker_run_id')`, used in incremental mode. -/
  nextRunId : Int
  /-- Candidate threshold returned by the novelty collaborator `novelty_analysis`. -/
  collabThreshold : ℚ
  /-- Per-message reconstruction error returned by `novelty_analysis`. -/
  recErr : Msg → ℚ
  /-- Cleaned message text (`cleaned_msg_text` column) produced by the novelty
  collaborator's preprocessing. -/
  cleaned : Msg → String
  /-- Sentiment collaborator `get_senti_score`: label and continuous score. -/
  senti : Msg → SLabel × ℚ
  /-- skimage's `threshold_otsu` on an array of reconstruction errors. -/
  otsu : List ℚ → ℚ
  /-- sklearn `IsolationForest`: fit-and-predict on the feature rows, one
  prediction per row (−1 = anomaly, 1 = normal), as a function of the
  constructor parameters.  Deterministic: the source fixes `random_state=42`. -/
  forest : IFParams → List (PyFloat × PyFloat) → List Int
  /-- Configuration `insight_days`. -/
  insightDays : Int
  /-- Whether `self.db.execute` raises on inserting a given `message_analysis`
  row (persistence-failure model). -/
  msgInsertFails : Nat → Bool
  /-- Whether `self.db.execute` raises on inserting a given
  `message_analysis_summary` row, keyed by the row's `period`. -/
  sumInsertFails : Int → Bool

/-- `self.full_train = not df_rep['exists'].iloc[0]` (line 90). -/
def fullTrain (env : Env) : Bool := !env.summaryExists

/-- Sort a list of timestamps ascending and take the last (the source's
`sort_values(by='msg_timestamp')` followed by `iloc[-1]`). -/
def cutoffOf (analyzed : List Int) : Int :=
  (List.insertionSort (· ≤ ·) analyzed).getLastD 0

/-- The incremental cutoff (line 116–117): sort the already-analyzed messages
by timestamp and take the last one, i.e. the maximum analyzed timestamp. -/
def cutoffTs (env : Env) : Int := cutoffOf env.pastAnalyzedTs

/-- The candidate batch (lines 126–151): all messages in full-train mode;
in incremental mode only messages with `msg_timestamp > :begin_date`
(strict inequality). -/
def candidateBatch (env : Env) : List Msg :=
  if fullTrain env then env.messages
  else env.messages.filter (fun m => cutoffTs env < m.ts)

/-- The size gate `df_message.shape[0] > 10` (line 157). -/
def bigEnough (env : Env) : Prop := 10 < (candidateBatch env).length

instance (env : Env) : Decidable (bigEnough env) := by
  unfold bigEnough; infer_instance

/-- Comparison on messages used by `sort_values(by='msg_timestamp')`. -/
def msgTsLe (a b : Msg) : Prop := a.ts ≤ b.ts

instance : DecidableRel msgTsLe := fun a b => by
  unfold msgTsLe; infer_instance

/-- The batch after `df_message.sort_values(by='msg_timestamp')` (line 160). -/
def sortedBatch (env : Env) : List Msg :=
  List.insertionSort msgTsLe (candidateBatch env)

/-- Historical reconstruction errors of all messages previously labeled
non-novel (`df_past.loc[df_past['novelty_flag'] == 0]`, lines 187–189). -/
def nonNovelErrors (env : Env) : List ℚ :=
  ((env.histRecords.filter (fun r => r.novelty_flag = 0)).map
    (fun r => r.reconstruction_error))

/-- The decision threshold actually used for labeling (lines 173–190): the
collaborator's threshold, overwritten in incremental mode by
`threshold_otsu` applied to the historical non-novel reconstruction errors. -/
def thresholdUsed (env : Env) : ℚ :=
  let threshold := env.collabThreshold
  if !fullTrain env then env.otsu (nonNovelErrors env) else threshold

/-- The insight begin date (line 193):
`datetime.combine(last_msg_timestamp - timedelta(days=insight_days), time.min)`,
i.e. midnight of the day `insight_days` days before the latest message of the
batch; at day granularity, the latest batch timestamp minus `insight_days`. -/
def beginDate (env : Env) : Int :=
  ((sortedBatch env).getLastD ⟨0, 0, ""⟩).ts - env.insightDays

/-- One scored and labeled message row of `df_message` after lines 173–205. -/
structure LRow where
  msg : Msg
  rec_err : ℚ
  senti_label : SLabel
  sentiment_score : ℚ
  novel_label : Nat
deriving DecidableEq, Repr

/-- The per-message labeler (line 198):
`1 if x['rec_err'] > threshold and len(x['cleaned_msg_text']) > 10 else 0`. -/
def novelLabel (env : Env) (m : Msg) : Nat :=
  if thresholdUsed env < env.recErr m ∧ 10 < (env.cleaned m).length then 1 else 0

/-- The scored and labeled row of one message. -/
def labelRow (env : Env) (m : Msg) : LRow :=
  { msg := m
    rec_err := env.recErr m
    senti_label := (env.senti m).1
    sentiment_score := (env.senti m).2
    novel_label := novelLabel env m }

/-- The fully scored batch, in iteration order (sorted by timestamp):
reconstruction error and novelty label from lines 173–198, sentiment label
and score from line 202. -/
def labeledRows (env : Env) : List LRow :=
  (sortedBatch env).map (labelRow env)

/-- The `msg` dict built for one `message_analysis` insert (lines 215–225). -/
structure ARow where
  msg_id : Nat
  worker_run_id : Int
  sentiment_score : ℚ
  reconstruction_error : ℚ
  novelty_flag : Nat
  feedback_flag : Option Bool
  tool_source : String
  tool_version : String
  data_source : String
deriving DecidableEq, Repr

/-- `self.run_id`: initialized to the sentinel 100 (line 63) and reassigned
from `get_max_id` only in incremental mode (line 120). -/
def runId (env : Env) : Int :=
  if !fullTrain env then env.nextRunId else 100

/-- The `message_analysis` rows the insertion loop iterates over, in batch
iteration order (lines 213–225). -/
def analysisRows (env : Env) : List ARow :=
  (labeledRows env).map (fun r =>
    { msg_id := r.msg.msg_id
      worker_run_id := runId env
      sentiment_score := r.sentiment_score
      reconstruction_error := r.rec_err
      novelty_flag := r.novel_label
      feedback_flag := none
      tool_source := "Message Insights Worker"
      tool_version := "0.0.2"
      data_source := "Non-existent API" })

/-- The row-at-a-time insertion loop with `break` on the first failure
(lines 213–233 and 328–348): returns `(attempted, inserted)`.  A failing row
is attempted but not inserted; every row after it is neither. -/
def insertLoop (fails : α → Bool) : List α → List α × List α
  | [] => ([], [])
  | r :: rs =>
      if fails r then ([r], [])
      else
        let p := insertLoop fails rs
        (r :: p.1, r :: p.2)

/-- The `message_analysis` rows for which `self.db.execute` is reached. -/
def attemptedAnalysis (env : Env) : List ARow :=
  (insertLoop (fun r => env.msgInsertFails r.msg_id) (analysisRows env)).1

/-- The `message_analysis` rows actually inserted. -/
def insertedAnalysis (env : Env) : List ARow :=
  (insertLoop (fun r => env.msgInsertFails r.msg_id) (analysisRows env)).2

/-- `pd.Grouper` bin start for timestamp `t` with bin width `w` and origin `o`
(the first — earliest — timestamp of the batch): fixed-width left-closed bins. -/
def binStart (o w t : Int) : Int := o + w * ((t - o) / w)

/-- Origin of the Grouper bins: the earliest timestamp of the sorted batch. -/
def binOrigin (env : Env) : Int := ((sortedBatch env).headD ⟨0, 0, ""⟩).ts

/-- The bins that appear in a `groupby(Grouper(freq=w)).apply(value_counts).unstack()`
result: the distinct bin starts of the rows present.  Bins with no rows
contribute an empty `value_counts` and hence no entries to the concatenated
MultiIndex, so they are absent from the unstacked frame. -/
def binsOf (env : Env) (w : Int) : List Int :=
  (((sortedBatch env).map (fun m => binStart (binOrigin env) w m.ts))).dedup

/-- Count of batch rows with sentiment label `l` in bin `b` at width `w`:
the `(b, l)` cell of the unstacked `value_counts` after `fillna(0)`. -/
def sentCount (env : Env) (w : Int) (l : SLabel) (b : Int) : ℕ :=
  ((labeledRows env).filter
    (fun r => binStart (binOrigin env) w r.msg.ts = b ∧ r.senti_label = l)).length

/-- Count of batch rows with novelty label `l` in bin `b` at width `w`. -/
def novelCount (env : Env) (w : Int) (l : Nat) (b : Int) : ℕ :=
  ((labeledRows env).filter
    (fun r => binStart (binOrigin env) w r.msg.ts = b ∧ r.novel_label = l)).length

/-- The distinct sentiment labels present in the batch: the columns of the
unstacked sentiment `value_counts`. -/
def sentPresent (env : Env) : List SLabel :=
  ((labeledRows env).map (fun r => r.senti_label)).dedup

/-- The distinct novelty labels present in the batch. -/
def novelPresent (env : Env) : List Nat :=
  ((labeledRows env).map (fun r => r.novel_label)).dedup

/-- A windowed aggregation table: its (bin-start) index and its named columns,
each column a function from bin start to count (`fillna(0)` applied). -/
structure Table where
  index : List Int
  cols : List (String × (Int → ℚ))

/-- First-match association lookup among named columns. -/
def lookupCol : List (String × (Int → ℚ)) → String → (Int → ℚ)
  | [], _ => fun _ => 0
  | c :: cs, n => if c.1 = n then c.2 else lookupCol cs n

/-- Column lookup; absent names give the all-zero column (only used at
names proved present). -/
def Table.getCol (t : Table) (n : String) : Int → ℚ := lookupCol t.cols n

/-- The column names of a table. -/
def Table.names (t : Table) : List String := t.cols.map (fun c => c.1)

/-- `sent_col` (line 258). -/
def sentColNames : List String := ["Positive", "Negative", "Neutral", "Total"]

/-- `novel_col` (line 274). -/
def novelColNames : List String := ["Normal", "Novel"]

/-- The named columns of the unstacked sentiment `value_counts` after
`fillna(0)` and the rename: one column per label present in the batch. -/
def sentiBaseCols (env : Env) (w : Int) : List (String × (Int → ℚ)) :=
  (sentPresent env).map (fun l => (slabelName l, fun b => (sentCount env w l b : ℚ)))

/-- The `Total` column: `df.sum(axis=1)` over the columns present at that
point, i.e. the per-bin sum of the per-label counts. -/
def sentiTotalCol (env : Env) (w : Int) : String × (Int → ℚ) :=
  ("Total", fun b => ((sentPresent env).map (fun l => (sentCount env w l b : ℚ))).sum)

/-- The zero-fill loop (`for col in sent_col: if col not in ...`): the
expected sentiment columns absent from the frame, appended as zero columns. -/
def sentiFillCols (env : Env) (w : Int) : List (String × (Int → ℚ)) :=
  (sentColNames.filter (fun n =>
    !((sentiBaseCols env w ++ [sentiTotalCol env w]).map (fun c => c.1)).contains n)).map
    (fun n => (n, fun _ => (0 : ℚ)))

/-- The sentiment aggregation table at bin width `w`, before any index
restriction (lines 249–262 with `w = 1`, lines 292–302 with `w = 15`):
unstacked `value_counts` with `fillna(0)`, a `Total` column summing the
columns present, the label rename, and the zero-fill loop appending every
expected sentiment column that is absent. -/
def sentiTableAll (env : Env) (w : Int) : Table :=
  { index := binsOf env w
    cols := (sentiBaseCols env w ++ [sentiTotalCol env w]) ++ sentiFillCols env w }

/-- The named columns of the unstacked novelty `value_counts` after
`fillna(0)` and the rename. -/
def novelBaseCols (env : Env) (w : Int) : List (String × (Int → ℚ)) :=
  (novelPresent env).map (fun l => (nlabelName l, fun b => (novelCount env w l b : ℚ)))

/-- The zero-fill loop for the novelty columns. -/
def novelFillCols (env : Env) (w : Int) : List (String × (Int → ℚ)) :=
  (novelColNames.filter (fun n =>
    !((novelBaseCols env w).map (fun c => c.1)).contains n)).map
    (fun n => (n, fun _ => (0 : ℚ)))

/-- The novelty aggregation table at bin width `w`, before any index
restriction (lines 266–278 with `w = 1`, lines 307–316 with `w = 15`). -/
def novelTableAll (env : Env) (w : Int) : Table :=
  { index := binsOf env w
    cols := novelBaseCols env w ++ novelFillCols env w }

/-- The daily sentiment insight table (lines 249–262): daily bins restricted
to `index >= begin_date`. -/
def dailySentiTable (env : Env) : Table :=
  let t := sentiTableAll env 1
  { t with index := t.index.filter (fun b => beginDate env ≤ b) }

/-- The daily novelty insight table (lines 266–278). -/
def dailyNovelTable (env : Env) : Table :=
  let t := novelTableAll env 1
  { t with index := t.index.filter (fun b => beginDate env ≤ b) }

/-- The 15-day sentiment table `df_senti` (lines 292–302), unrestricted. -/
def senti15Table (env : Env) : Table := sentiTableAll env 15

/-- The 15-day novelty table `df_uniq` (lines 307–316), unrestricted. -/
def novel15Table (env : Env) : Table := novelTableAll env 15

/-- `PosR` for a 15-day bin (line 303): `Positive/Total` as float division
(0/0 would be NaN). -/
def posRatio (env : Env) (b : Int) : PyFloat :=
  PyFloat.div (.fin ((senti15Table env).getCol "Positive" b))
    (.fin ((senti15Table env).getCol "Total" b))

/-- `NegR` for a 15-day bin (line 304). -/
def negRatio (env : Env) (b : Int) : PyFloat :=
  PyFloat.div (.fin ((senti15Table env).getCol "Negative" b))
    (.fin ((senti15Table env).getCol "Total" b))

/-- The `msg` dict built for one `message_analysis_summary` insert
(lines 330–340). -/
structure SRow where
  repo_id : Nat
  worker_run_id : Int
  positive_ratio : PyFloat
  negative_ratio : PyFloat
  novel_count : ℚ
  period : Int
  tool_source : String
  tool_version : String
  data_source : String
deriving DecidableEq, Repr

/-- The per-bin summary rows of `df_trend = pd.merge(df_senti, df_uniq,
how="inner", ...)` (lines 319–340): one row per 15-day bin (both frames are
binned from the same batch, so the inner join keeps exactly the common
bins), carrying `PosR`, `NegR` and the `Novel` count. -/
def summaryRows (env : Env) : List SRow :=
  (binsOf env 15).map (fun b =>
    { repo_id := env.repoId
      worker_run_id := runId env
      positive_ratio := posRatio env b
      negative_ratio := negRatio env b
      novel_count := (novel15Table env).getCol "Novel" b
      period := b
      tool_source := "Message Insights Worker"
      tool_version := "0.0.2"
      data_source := "Non-existent API" })

/-- The `message_analysis_summary` rows for which `self.db.execute` is reached
(loop with `break`, lines 328–348). -/
def attemptedSummaries (env : Env) : List SRow :=
  (insertLoop (fun r => env.sumInsertFails r.period) (summaryRows env)).1

/-- The `message_analysis_summary` rows actually inserted. -/
def insertedSummaries (env : Env) : List SRow :=
  (insertLoop (fun r => env.sumInsertFails r.period) (summaryRows env)).2

/-- The full persisted summary history re-read after insertion (line 352):
the pre-existing rows followed by the rows this run inserted. -/
def historyRows (env : Env) : List HRow :=
  env.pastSummaries ++ (insertedSummaries env).map (fun r =>
    { period := r.period
      positive_ratio := r.positive_ratio
      negative_ratio := r.negative_ratio
      novel_count := .fin r.novel_count })

/-- pandas column mean with `skipna=True` (line 356): NaN entries are dropped
from both the sum and the count; the mean of an empty (or all-NaN) column is
NaN (0/0). -/
def pmean (xs : List PyFloat) : PyFloat :=
  PyFloat.div ((xs.filter (fun x => x ≠ PyFloat.nan)).foldl PyFloat.add (.fin 0))
    (.fin ((xs.filter (fun x => x ≠ PyFloat.nan)).length : ℚ))

/-- The deviation of the most recent period from the mean of all earlier
periods (lines 356–360): `shift = (current - mean) / mean * 100` where
`mean` is over `iloc[:-1]` and `current` is `iloc[-1]`. -/
def shiftOf (vals : List PyFloat) : PyFloat :=
  let m := pmean vals.dropLast
  let curr := vals.getLastD .nan
  PyFloat.mul (PyFloat.div (PyFloat.sub curr m) m) (.fin 100)

/-- `deviation_insights` (line 362). -/
def deviationInsights (env : Env) : List (String × PyFloat) :=
  [("Positive", shiftOf ((historyRows env).map (fun r => r.positive_ratio))),
   ("Negative", shiftOf ((historyRows env).map (fun r => r.negative_ratio))),
   ("Novel", shiftOf ((historyRows env).map (fun r => r.novel_count)))]

/-- The `IsolationForest` constructor arguments of line 372:
`n_estimators=100, max_samples='auto', max_features=1.0, bootstrap=False,
n_jobs=-1, random_state=42, verbose=0`. -/
def ifParamsUsed : IFParams :=
  { n_estimators := 100
    max_samples_auto := true
    max_features := 1
    bootstrap := false
    n_jobs := -1
    random_state := 42
    verbose := 0 }

/-- `clf.fit(df1[features]); clf.predict(df1[features])` (lines 373–374): the
detector is fit from scratch on the full history's
`(positive_ratio, negative_ratio)` pairs and predicts one flag per period. -/
def anomalyPreds (env : Env) : List Int :=
  env.forest ifParamsUsed
    ((historyRows env).map (fun r => (r.positive_ratio, r.negative_ratio)))

/-- `senti_anomaly_timestamps` (lines 375–378): the periods whose prediction
is −1, restricted to `period >= self.begin_date`. -/
def anomalyTimestamps (env : Env) : List Int :=
  ((((historyRows env).zip (anomalyPreds env)).filter
    (fun p => p.2 = -1)).filter
    (fun p => beginDate env ≤ p.1.period)).map (fun p => p.1.period)

/-- A per-column sum `df[...].sum(axis=0).to_dict()` over the rows of a table
(lines 264 and 279). -/
def Table.colSums (t : Table) : List (String × ℚ) :=
  t.cols.map (fun c => (c.1, (t.index.map c.2).sum))

/-- The payload handed to `send_insight` (lines 392–396, 419–427). -/
structure Payload where
  sentiment : List (String × ℚ)
  novelty : List (String × ℚ)
  recent_deviation : List (String × PyFloat)
  sentiment_anomaly_timestamps : List Int

/-- The insight payload of a completed run. -/
def payload (env : Env) : Payload :=
  { sentiment := (dailySentiTable env).colSums
    novelty := (dailyNovelTable env).colSums
    recent_deviation := deviationInsights env
    sentiment_anomaly_timestamps := anomalyTimestamps env }

/-- The observable outcome of a run that reached `register_task_completion`:
either the early exit of the `df_message.shape[0] > 10` gate — no scoring, no
insertion — or a completed analysis with its persisted rows and payload. -/
inductive RunResult : Type where
  | skipped
  | done (thresholdUsed : ℚ) (insertedAnalysis : List ARow)
      (insertedSummaries : List SRow) (payload : Payload)

/-- The whole `message_analysis_model` run.  `none` models the uncaught
`IndexError` of `df_past['msg_timestamp'].iloc[-1]` (line 117) when an
incremental run finds no previously analyzed message; otherwise the run
always reaches `register_task_completion` (line 408): batches of ten or
fewer messages are an early exit, not a failure. -/
def runModel (env : Env) : Option RunResult :=
  if !fullTrain env ∧ env.pastAnalyzedTs = [] then none
  else some <|
    if 10 < (candidateBatch env).length then
      .done (thresholdUsed env) (insertedAnalysis env) (insertedSummaries env)
        (payload env)
    else .skipped

/-- The `message_analysis` rows a run inserts (none unless it completed). -/
def runInsertedAnalysis (env : Env) : List ARow :=
  match runModel env with
  | some (.done _ a _ _) => a
  | _ => []

/-- The `message_analysis_summary` rows a run inserts. -/
def runInsertedSummaries (env : Env) : List SRow :=
  match runModel env with
  | some (.done _ _ s _) => s
  | _ => []

/-- The effect of one further run on the set of analyzed-message timestamps:
an incremental run fetches the messages strictly newer than the cutoff
(`msg_timestamp > :begin_date`), and — when the batch passes the
`shape[0] > 10` gate — analyzes and persists them, so their timestamps join
the analyzed population the next cutoff is computed from. -/
def stepAnalyzed (msgs : List Msg) (analyzed : List Int) : List Int :=
  let batch := msgs.filter (fun m => cutoffOf analyzed < m.ts)
  if 10 < batch.length then analyzed ++ batch.map (fun m => m.ts) else analyzed

/-- The analyzed-timestamp population after `n` further incremental runs. -/
def iterRuns (msgs : List Msg) (analyzed : List Int) : Nat → List Int
  | 0 => analyzed
  | n + 1 => iterRuns msgs (stepAnalyzed msgs analyzed) n

/-- A fixed base environment used to instantiate theorems on concrete data:
an unanalyzed repository with no messages and collaborators returning
simple deterministic scores. -/
def baseEnv : Env :=
  { repoId := 1
    summaryExists := false
    pastAnalyzedTs := []
    messages := []
    histRecords := []
    pastSummaries := []
    nextRunId := 101
    collabThreshold := 0
    recErr := fun _ => 1
    cleaned := fun _ => ""
    senti := fun _ => (.pos, 1)
    otsu := fun l => l.sum
    forest := fun _ rows => rows.map (fun _ => 1)
    insightDays := 7
    msgInsertFails := fun _ => false
    sumInsertFails := fun _ => false }

/-- `n` one-per-day messages with ids and day timestamps `0, …, n-1`. -/
def wMsgs (n : Nat) : List Msg :=
  (List.range n).map (fun i => { msg_id := i, ts := (i : Int), text := "" })

/-- Incremental-mode environment with eleven candidate messages and a
non-novel history, used to instantiate theorems. -/
def env1 : Env :=
  { baseEnv with
    summaryExists := true
    pastAnalyzedTs := [-1]
    messages := wMsgs 11
    histRecords := [{ novelty_flag := 0, reconstruction_error := 2 },
                    { novelty_flag := 1, reconstruction_error := 7 }]
    collabThreshold := 42 }

/-- Full-train environment with eleven messages whose cleaned text is five
characters long. -/
def env2 : Env :=
  { baseEnv with messages := wMsgs 11, cleaned := fun _ => "short" }

/-- Full-train environment with eleven messages where inserting the row of
message 5 fails. -/
def env5 : Env :=
  { baseEnv with messages := wMsgs 11, msgInsertFails := fun i => i == 5 }

/-- Incremental-mode environment where no message is newer than the cutoff. -/
def env8 : Env :=
  { baseEnv with
    summaryExists := true
    pastAnalyzedTs := [5]
    messages := [{ msg_id := 0, ts := 3, text := "" }, { msg_id := 1, ts := 5, text := "" }] }

/-- Incremental-mode environment with one message whose timestamp equals the
cutoff. -/
def env9 : Env :=
  { baseEnv with
    summaryExists := true
    pastAnalyzedTs := [3]
    messages := [{ msg_id := 0, ts := 3, text := "" }] }

/-- Full-train environment whose batch spans three 15-day bins with an empty
middle bin: eleven messages on day 0 and one on day 40. -/
def env10 : Env :=
  { baseEnv with
    messages := (List.range 11).map (fun i => { msg_id := i, ts := 0, text := "" }) ++
      [{ msg_id := 11, ts := 40, text := "" }] }

/-- The `message_analysis` row the pipeline builds for message `i` of
`wMsgs` under `baseEnv`-style collaborators. -/
def arow (i : Nat) : ARow :=
  { msg_id := i
    worker_run_id := 100
    sentiment_score := 1
    reconstruction_error := 1
    novelty_flag := 0
    feedback_flag := none
    tool_source := "Message Insights Worker"
    tool_version := "0.0.2"
    data_source := "Non-existent API" }

/-! ### Helper lemmas -/

/-- The fail-fast insertion loop on a list whose first failing row is `f`:
the attempted rows are exactly the preceding rows and `f` itself, the
inserted rows exactly the preceding rows; the suffix after `f` plays no
role. -/
theorem insertLoop_firstFail (fails : α → Bool) (xs : List α) (f : α) (ys : List α)
    (hxs : ∀ x ∈ xs, fails x = false) (hf : fails f = true) :
    insertLoop fails (xs ++ f :: ys) = (xs ++ [f], xs) := by
  induction xs with
  | nil => simp [insertLoop, hf]
  | cons a t ih =>
      have ha : fails a = false := hxs a (by simp)
      have ht := ih (fun x hx => hxs x (by simp [hx]))
      simp [insertLoop, ha, ht]

/-- In a `≤`-sorted list of integers every member is at most the last entry. -/
theorem mem_le_getLastD :
    ∀ (l : List Int), List.Sorted (· ≤ ·) l → ∀ x ∈ l, ∀ d : Int, x ≤ l.getLastD d
  | [], _, x, hx, _ => absurd hx (List.not_mem_nil x)
  | [a], _, x, hx, d => by
      rcases List.mem_singleton.1 hx with rfl
      simp [List.getLastD_cons]
  | a :: b :: t, hs, x, hx, d => by
      rw [List.getLastD_cons]
      rcases List.mem_cons.1 hx with h | hx'
      · rw [h]
        exact le_trans (List.rel_of_sorted_cons hs b (by simp))
          (mem_le_getLastD (b :: t) hs.of_cons b (by simp) a)
      · exact mem_le_getLastD (b :: t) hs.of_cons x hx' a

/-- The last entry of a nonempty list is a member. -/
theorem getLastD_mem : ∀ (l : List Int), l ≠ [] → ∀ d : Int, l.getLastD d ∈ l
  | [], h, _ => absurd rfl h
  | [_], _, d => by simp
  | a :: b :: t, _, d => by
      rw [List.getLastD_cons]
      exact List.mem_cons_of_mem a (getLastD_mem (b :: t) (by simp) d)

/-- The cutoff (sort ascending, take last) is an upper bound of the list. -/
theorem le_cutoffOf {l : List Int} {x : Int} (hx : x ∈ l) : x ≤ cutoffOf l := by
  unfold cutoffOf
  exact mem_le_getLastD _ (List.sorted_insertionSort (· ≤ ·) l) x
    ((List.mem_insertionSort (· ≤ ·)).2 hx) 0

/-- The cutoff of a nonempty list is one of its entries. -/
theorem cutoffOf_mem {l : List Int} (hl : l ≠ []) : cutoffOf l ∈ l := by
  unfold cutoffOf
  have hne : List.insertionSort (· ≤ ·) l ≠ [] := by
    intro h
    have hlen := (List.perm_insertionSort (· ≤ ·) l).length_eq
    rw [h] at hlen
    exact hl (List.length_eq_zero.1 hlen.symm)
  exact (List.mem_insertionSort (· ≤ ·)).1 (getLastD_mem _ hne 0)

/-- Appending analyzed timestamps can only raise the cutoff. -/
theorem cutoffOf_le_append (l e : List Int) (hl : l ≠ []) :
    cutoffOf l ≤ cutoffOf (l ++ e) :=
  le_cutoffOf (List.mem_append_left e (cutoffOf_mem hl))

/-- Unfolding equation for `stepAnalyzed`. -/
theorem stepAnalyzed_eq (msgs : List Msg) (analyzed : List Int) :
    stepAnalyzed msgs analyzed =
      if 10 < (msgs.filter (fun m => cutoffOf analyzed < m.ts)).length then
        analyzed ++ (msgs.filter (fun m => cutoffOf analyzed < m.ts)).map (fun m => m.ts)
      else analyzed := rfl

/-- A run never empties the analyzed population. -/
theorem stepAnalyzed_ne_nil (msgs : List Msg) {analyzed : List Int}
    (h : analyzed ≠ []) : stepAnalyzed msgs analyzed ≠ [] := by
  rw [stepAnalyzed_eq]
  split_ifs with hb
  · intro hc
    exact h (List.append_eq_nil.1 hc).1
  · exact h

/-- A run never lowers the cutoff. -/
theorem cutoffOf_le_step (msgs : List Msg) {analyzed : List Int}
    (h : analyzed ≠ []) : cutoffOf analyzed ≤ cutoffOf (stepAnalyzed msgs analyzed) := by
  rw [stepAnalyzed_eq]
  split_ifs with hb
  · exact cutoffOf_le_append _ _ h
  · exact le_refl _

/-- Dividing any value by (finite) zero and scaling by 100 is never finite:
`fin/0` is `±inf` or `nan`, `±inf/0` keeps its sign, `nan` propagates, and
multiplication by 100 preserves all of these. -/
theorem PyFloat.div_fin_zero_mul_not_finite (x : PyFloat) :
    ((x.div (.fin 0)).mul (.fin 100)).isFinite = false := by
  cases x with
  | fin a =>
      by_cases h0 : a = 0
      · simp [PyFloat.div, PyFloat.mul, PyFloat.isFinite, h0]
      · rcases lt_or_gt_of_ne h0 with hlt | hgt
        · simp [PyFloat.div, PyFloat.mul, PyFloat.isFinite, h0, not_lt.2 hlt.le,
            hlt.not_lt]
        · simp [PyFloat.div, PyFloat.mul, PyFloat.isFinite, h0, hgt]
  | inf => norm_num [PyFloat.div, PyFloat.mul, PyFloat.isFinite]
  | ninf => norm_num [PyFloat.div, PyFloat.mul, PyFloat.isFinite]
  | nan => simp [PyFloat.div, PyFloat.mul, PyFloat.isFinite]

/-- A deviation shift over a history whose historical mean is exactly zero is
non-finite, whatever the most recent value is. -/
theorem shiftOf_not_finite_of_mean_zero (vals : List PyFloat)
    (h : pmean vals.dropLast = .fin 0) : (shiftOf vals).isFinite = false := by
  have hrw : shiftOf vals =
      PyFloat.mul (PyFloat.div (PyFloat.sub (vals.getLastD .nan)
        (pmean vals.dropLast)) (pmean vals.dropLast)) (.fin 100) := rfl
  rw [hrw, h]
  exact PyFloat.div_fin_zero_mul_not_finite _

/-- A batch of ten or fewer candidate messages ends the run in the early-exit
state (`register_task_completion` is still reached). -/
theorem runModel_skipped {env : Env}
    (hok : fullTrain env = true ∨ env.pastAnalyzedTs ≠ [])
    (hsmall : (candidateBatch env).length ≤ 10) :
    runModel env = some .skipped := by
  have hguard : ¬((!fullTrain env) = true ∧ env.pastAnalyzedTs = []) := by
    rintro ⟨h1, h2⟩
    rcases hok with h | h
    · rw [h] at h1
      exact absurd h1 (by simp)
    · exact h h2
  unfold runModel
  rw [if_neg hguard, if_neg (by omega : ¬ 10 < (candidateBatch env).length)]

/-- `slabelName` is injective. -/
theorem slabelName_inj {a b : SLabel} (h : slabelName a = slabelName b) : a = b := by
  cases a <;> cases b <;> first | rfl | (exfalso; revert h; decide)

/-- No sentiment label renames to the `Total` column. -/
theorem slabelName_ne_total (l : SLabel) : slabelName l ≠ "Total" := by
  cases l <;> decide

/-- Lookup skips a prefix none of whose names match. -/
theorem lookupCol_append_right (l₁ l₂ : List (String × (Int → ℚ))) (n : String)
    (h : ∀ c ∈ l₁, c.1 ≠ n) : lookupCol (l₁ ++ l₂) n = lookupCol l₂ n := by
  induction l₁ with
  | nil => rfl
  | cons c cs ih =>
      rw [List.cons_append]
      show (if c.1 = n then c.2 else lookupCol (cs ++ l₂) n) = _
      rw [if_neg (h c (by simp))]
      exact ih (fun d hd => h d (by simp [hd]))

/-- Lookup stays in a prefix that contains the name. -/
theorem lookupCol_append_left (l₁ l₂ : List (String × (Int → ℚ))) (n : String)
    (h : n ∈ l₁.map Prod.fst) : lookupCol (l₁ ++ l₂) n = lookupCol l₁ n := by
  induction l₁ with
  | nil => simp at h
  | cons c cs ih =>
      by_cases hc : c.1 = n
      · show (if c.1 = n then c.2 else _) = (if c.1 = n then c.2 else _)
        rw [if_pos hc, if_pos hc]
      · have hcs : n ∈ cs.map Prod.fst := by
          rcases List.mem_map.1 h with ⟨d, hd, he⟩
          rcases List.mem_cons.1 hd with h1 | hd'
          · exact absurd (h1 ▸ he) hc
          · exact List.mem_map.2 ⟨d, hd', he⟩
        show (if c.1 = n then c.2 else _) = (if c.1 = n then c.2 else _)
        rw [if_neg hc, if_neg hc]
        exact ih hcs

/-- Looking anything up among all-zero columns gives the zero column. -/
theorem lookupCol_zeros (names : List String) (n : String) :
    lookupCol (names.map (fun n' => (n', fun _ => (0 : ℚ)))) n = fun _ => 0 := by
  induction names with
  | nil => rfl
  | cons a t ih =>
      show (if a = n then _ else _) = _
      split_ifs <;> [rfl; exact ih]

/-- Lookup of a present label inside the unstacked `value_counts` columns. -/
theorem lookupCol_labelMap (pres : List SLabel) (g : SLabel → Int → ℚ) (l : SLabel)
    (hl : l ∈ pres) :
    lookupCol (pres.map (fun x => (slabelName x, g x))) (slabelName l) = g l := by
  induction pres with
  | nil => cases hl
  | cons a t ih =>
      by_cases h : a = l
      · subst h
        show (if slabelName a = slabelName a then g a else _) = g a
        rw [if_pos rfl]
      · have hne : slabelName a ≠ slabelName l := fun he => h (slabelName_inj he)
        have hl' : l ∈ t := by
          rcases List.mem_cons.1 hl with h1 | h1
          · exact absurd h1.symm h
          · exact h1
        show (if slabelName a = slabelName l then g a else _) = g l
        rw [if_neg hne]
        exact ih hl'

/-- A label absent from the batch has a zero count in every bin. -/
theorem sentCount_eq_zero (env : Env) (w : Int) (l : SLabel) (b : Int)
    (hl : l ∉ sentPresent env) : sentCount env w l b = 0 := by
  unfold sentCount
  rw [List.length_eq_zero, List.filter_eq_nil_iff]
  intro r hr
  simp only [decide_eq_true_eq, not_and]
  intro _ he
  exact hl (List.mem_dedup.2 (List.mem_map.2 ⟨r, hr, he⟩))

/-- A novelty label absent from the batch has a zero count in every bin. -/
theorem novelCount_eq_zero (env : Env) (w : Int) (l : Nat) (b : Int)
    (hl : l ∉ novelPresent env) : novelCount env w l b = 0 := by
  unfold novelCount
  rw [List.length_eq_zero, List.filter_eq_nil_iff]
  intro r hr
  simp only [decide_eq_true_eq, not_and]
  intro _ he
  exact hl (List.mem_dedup.2 (List.mem_map.2 ⟨r, hr, he⟩))

/-- Every novelty label the labeler produces is 0 or 1. -/
theorem novelPresent_mem (env : Env) {l : Nat} (hl : l ∈ novelPresent env) :
    l = 0 ∨ l = 1 := by
  unfold novelPresent at hl
  rcases List.mem_map.1 (List.mem_dedup.1 hl) with ⟨r, hr, he⟩
  rcases List.mem_map.1 hr with ⟨m, _, rfl⟩
  have he' : novelLabel env m = l := he
  unfold novelLabel at he'
  split_ifs at he'
  · exact Or.inr he'.symm
  · exact Or.inl he'.symm

/-- `nlabelName` is injective on the labels 0 and 1. -/
theorem nlabelName_inj01 {l l' : Nat} (h : l = 0 ∨ l = 1) (h' : l' = 0 ∨ l' = 1)
    (he : nlabelName l = nlabelName l') : l = l' := by
  rcases h with rfl | rfl <;> rcases h' with rfl | rfl <;>
    first | rfl | (exfalso; revert he; decide)

/-- Lookup of a present 0/1 novelty label inside its `value_counts` columns. -/
theorem lookupCol_nlabelMap (pres : List Nat) (g : Nat → Int → ℚ) (l : Nat)
    (hpres : ∀ x ∈ pres, x = 0 ∨ x = 1) (hl01 : l = 0 ∨ l = 1) (hl : l ∈ pres) :
    lookupCol (pres.map (fun x => (nlabelName x, g x))) (nlabelName l) = g l := by
  induction pres with
  | nil => cases hl
  | cons a t ih =>
      by_cases h : a = l
      · subst h
        show (if nlabelName a = nlabelName a then g a else _) = g a
        rw [if_pos rfl]
      · have hne : nlabelName a ≠ nlabelName l := fun he =>
          h (nlabelName_inj01 (hpres a (by simp)) hl01 he)
        have hl' : l ∈ t := by
          rcases List.mem_cons.1 hl with h1 | h1
          · exact absurd h1.symm h
          · exact h1
        show (if nlabelName a = nlabelName l then g a else _) = g l
        rw [if_neg hne]
        exact ih (fun x hx => hpres x (by simp [hx])) hl'

/-- In every produced sentiment table, the looked-up value of a label column
is that label's per-bin count (zero when the label is absent, matching the
zero-fill). -/
theorem sentiTableAll_getCol_label (env : Env) (w : Int) (l : SLabel) (b : Int) :
    (sentiTableAll env w).getCol (slabelName l) b = (sentCount env w l b : ℚ) := by
  unfold Table.getCol sentiTableAll
  by_cases hl : l ∈ sentPresent env
  · have h1 : slabelName l ∈ (sentiBaseCols env w).map Prod.fst := by
      unfold sentiBaseCols
      rw [List.map_map]
      exact List.mem_map.2 ⟨l, hl, rfl⟩
    rw [lookupCol_append_left _ _ _
      (by rw [List.map_append]; exact List.mem_append_left _ h1)]
    rw [lookupCol_append_left _ _ _ h1]
    unfold sentiBaseCols
    rw [lookupCol_labelMap _ _ _ hl]
  · have hz : sentCount env w l b = 0 := sentCount_eq_zero env w l b hl
    have hnot : ∀ c ∈ sentiBaseCols env w ++ [sentiTotalCol env w],
        c.1 ≠ slabelName l := by
      intro c hc
      rcases List.mem_append.1 hc with hcb | hct
      · rcases List.mem_map.1 hcb with ⟨l', hl', rfl⟩
        intro he
        exact hl (slabelName_inj he ▸ hl')
      · rcases List.mem_singleton.1 hct with rfl
        exact fun he => slabelName_ne_total l he.symm
    rw [lookupCol_append_right _ _ _ hnot]
    unfold sentiFillCols
    rw [lookupCol_zeros]
    simp [hz]

/-- In every produced sentiment table, `Total` is the per-bin sum of the
per-label counts of the labels present. -/
theorem sentiTableAll_getCol_total (env : Env) (w : Int) (b : Int) :
    (sentiTableAll env w).getCol "Total" b =
      ((sentPresent env).map (fun l => (sentCount env w l b : ℚ))).sum := by
  unfold Table.getCol sentiTableAll
  have h1 : "Total" ∈ ((sentiBaseCols env w ++ [sentiTotalCol env w]).map Prod.fst) := by
    rw [List.map_append]
    refine List.mem_append_right _ ?_
    simp [sentiTotalCol]
  rw [lookupCol_append_left _ _ _ h1]
  rw [lookupCol_append_right (sentiBaseCols env w) [sentiTotalCol env w] _
    (by
      intro c hc
      rcases List.mem_map.1 hc with ⟨l', _, rfl⟩
      exact slabelName_ne_total l')]
  simp [lookupCol, sentiTotalCol]

/-- A sum of one value per present label collapses to the sum over the three
sentiment categories when the function vanishes off the present labels. -/
theorem sum_over_present (f : SLabel → ℚ) (pres : List SLabel) (hnd : pres.Nodup)
    (hz : ∀ l, l ∉ pres → f l = 0) :
    (pres.map f).sum = f .pos + f .neg + f .neu := by
  have h1 : (pres.map f).sum = pres.toFinset.sum f := (List.sum_toFinset f hnd).symm
  have h2 : pres.toFinset.sum f = (Finset.univ : Finset SLabel).sum f :=
    Finset.sum_subset (Finset.subset_univ _) (fun x _ hx => hz x (by simpa using hx))
  have h3 : (Finset.univ : Finset SLabel).sum f = f .pos + f .neg + f .neu := by
    have huniv : (Finset.univ : Finset SLabel) =
        insert SLabel.neg (insert SLabel.neu {SLabel.pos}) := by decide
    rw [huniv, Finset.sum_insert (by decide), Finset.sum_insert (by decide),
      Finset.sum_singleton]
    ring
  rw [h1, h2, h3]

/-- Every expected sentiment column name occurs in every produced sentiment
table. -/
theorem sentiTableAll_names (env : Env) (w : Int) :
    sentColNames ⊆ (sentiTableAll env w).names := by
  intro n hn
  unfold Table.names sentiTableAll
  rw [List.map_append]
  by_cases h : n ∈ ((sentiBaseCols env w ++ [sentiTotalCol env w]).map (fun c => c.1))
  · exact List.mem_append_left _ h
  · refine List.mem_append_right _ ?_
    unfold sentiFillCols
    rw [List.map_map]
    refine List.mem_map.2 ⟨n, ?_, rfl⟩
    refine List.mem_filter.2 ⟨hn, ?_⟩
    simpa using h

/-- In every produced novelty table, the looked-up value of the `Normal` or
`Novel` column is that label's per-bin count. -/
theorem novelTableAll_getCol (env : Env) (w : Int) (l : Nat) (hl01 : l = 0 ∨ l = 1)
    (b : Int) :
    (novelTableAll env w).getCol (nlabelName l) b = (novelCount env w l b : ℚ) := by
  unfold Table.getCol novelTableAll
  by_cases hl : l ∈ novelPresent env
  · have h1 : nlabelName l ∈ (novelBaseCols env w).map Prod.fst := by
      unfold novelBaseCols
      rw [List.map_map]
      exact List.mem_map.2 ⟨l, hl, rfl⟩
    rw [lookupCol_append_left _ _ _ h1]
    unfold novelBaseCols
    exact congrFun (lookupCol_nlabelMap _ _ _ (fun x hx => novelPresent_mem env hx)
      hl01 hl) b
  · have hz : novelCount env w l b = 0 := novelCount_eq_zero env w l b hl
    have hnot : ∀ c ∈ novelBaseCols env w, c.1 ≠ nlabelName l := by
      intro c hc
      rcases List.mem_map.1 hc with ⟨l', hl', rfl⟩
      intro he
      exact hl (nlabelName_inj01 (novelPresent_mem env hl') hl01 he ▸ hl')
    rw [lookupCol_append_right _ _ _ hnot]
    unfold novelFillCols
    rw [lookupCol_zeros]
    simp [hz]

/-- Every expected novelty column name occurs in every produced novelty
table. -/
theorem novelTableAll_names (env : Env) (w : Int) :
    novelColNames ⊆ (novelTableAll env w).names := by
  intro n hn
  unfold Table.names novelTableAll
  rw [List.map_append]
  by_cases h : n ∈ ((novelBaseCols env w).map (fun c => c.1))
  · exact List.mem_append_left _ h
  · refine List.mem_append_right _ ?_
    unfold novelFillCols
    rw [List.map_map]
    refine List.mem_map.2 ⟨n, ?_, rfl⟩
    refine List.mem_filter.2 ⟨hn, ?_⟩
    simpa using h

/-! ### Claim theorems -/

/-- C1: For every incremental run (a prior summary exists), the decision
threshold actually used for labeling is not the collaborator's returned
threshold — it is independent of it and equals Otsu's method applied to the
historical reconstruction errors of the messages previously labeled
non-novel; for every full-train run the collaborator's threshold is used
unchanged. -/
theorem C1_threshold_calibration (env : Env)
    (_hbig : 10 < (candidateBatch env).length) :
    (fullTrain env = false →
      thresholdUsed env = env.otsu (nonNovelErrors env) ∧
      ∀ q : ℚ, thresholdUsed { env with collabThreshold := q } = thresholdUsed env) ∧
    (fullTrain env = true → thresholdUsed env = env.collabThreshold) := by
  constructor
  · intro hft
    constructor
    · simp [thresholdUsed, hft]
    · intro q
      have h1 : fullTrain { env with collabThreshold := q } = fullTrain env := rfl
      simp [thresholdUsed, h1, hft, nonNovelErrors]
  · intro hft
    simp [thresholdUsed, hft]

/-- C1 witness: on `env1` (incremental, eleven candidates) the used threshold
is the Otsu recomputation over the stored non-novel errors, and changing the
collaborator's returned threshold does not change it. -/
theorem C1_witness :
    thresholdUsed env1 = env1.otsu (nonNovelErrors env1) ∧
    thresholdUsed { env1 with collabThreshold := 99 } = thresholdUsed env1 :=
  ⟨((C1_threshold_calibration env1 (by decide)).1 (by decide)).1,
   ((C1_threshold_calibration env1 (by decide)).1 (by decide)).2 99⟩

/-- C2: in a processed batch a message's novelty flag is 1 exactly when its
reconstruction error strictly exceeds the threshold and its cleaned text is
strictly longer than 10 characters; otherwise it is 0, and in particular a
cleaned text of length at most 10 is never flagged novel. -/
theorem C2_novelty_flag_rule (env : Env)
    (_hbig : 10 < (candidateBatch env).length)
    (r : LRow) (hr : r ∈ labeledRows env) :
    (r.novel_label = 1 ↔
      thresholdUsed env < r.rec_err ∧ 10 < (env.cleaned r.msg).length) ∧
    (r.novel_label ≠ 1 → r.novel_label = 0) ∧
    ((env.cleaned r.msg).length ≤ 10 → r.novel_label = 0) := by
  rcases List.mem_map.1 hr with ⟨m, _, rfl⟩
  refine ⟨?_, ?_, ?_⟩
  · show novelLabel env m = 1 ↔ _
    unfold novelLabel
    split_ifs with h
    · simp [labelRow, h]
    · simp [labelRow, h]
  · show novelLabel env m ≠ 1 → novelLabel env m = 0
    unfold novelLabel
    split_ifs with h
    · intro hc
      exact absurd rfl hc
    · intro _
      rfl
  · show (env.cleaned m).length ≤ 10 → novelLabel env m = 0
    intro hlen
    unfold novelLabel
    rw [if_neg]
    rintro ⟨_, hgt⟩
    omega

/-- C2 witness: on `env2` the first labeled row (cleaned text of length 5,
reconstruction error above the threshold) is not flagged novel. -/
theorem C2_witness :
    (((labeledRows env2).headD
        { msg := { msg_id := 0, ts := 0, text := "" }, rec_err := 0,
          senti_label := .pos, sentiment_score := 0, novel_label := 1 }).novel_label = 1 ↔
      thresholdUsed env2 <
        ((labeledRows env2).headD
          { msg := { msg_id := 0, ts := 0, text := "" }, rec_err := 0,
            senti_label := .pos, sentiment_score := 0, novel_label := 1 }).rec_err ∧
      10 < (env2.cleaned ((labeledRows env2).headD
          { msg := { msg_id := 0, ts := 0, text := "" }, rec_err := 0,
            senti_label := .pos, sentiment_score := 0, novel_label := 1 }).msg).length) ∧
    (((labeledRows env2).headD
        { msg := { msg_id := 0, ts := 0, text := "" }, rec_err := 0,
          senti_label := .pos, sentiment_score := 0, novel_label := 1 }).novel_label ≠ 1 →
      ((labeledRows env2).headD
        { msg := { msg_id := 0, ts := 0, text := "" }, rec_err := 0,
          senti_label := .pos, sentiment_score := 0, novel_label := 1 }).novel_label = 0) ∧
    ((env2.cleaned ((labeledRows env2).headD
        { msg := { msg_id := 0, ts := 0, text := "" }, rec_err := 0,
          senti_label := .pos, sentiment_score := 0, novel_label := 1 }).msg).length ≤ 10 →
      ((labeledRows env2).headD
        { msg := { msg_id := 0, ts := 0, text := "" }, rec_err := 0,
          senti_label := .pos, sentiment_score := 0, novel_label := 1 }).novel_label = 0) :=
  C2_novelty_flag_rule env2 (by decide) _ (by decide)

/-- C3: a candidate batch of ten or fewer messages (including the empty
batch) produces no `message_analysis` row and no `message_analysis_summary`
row, performs no scoring, and ends in the early-exit state rather than an
error, regardless of message content. -/
theorem C3_small_batch_early_exit (env : Env)
    (hok : fullTrain env = true ∨ env.pastAnalyzedTs ≠ [])
    (hsmall : (candidateBatch env).length ≤ 10) :
    runModel env = some .skipped ∧
    runInsertedAnalysis env = [] ∧ runInsertedSummaries env = [] := by
  have h := runModel_skipped hok hsmall
  exact ⟨h, by simp [runInsertedAnalysis, h], by simp [runInsertedSummaries, h]⟩

/-- C3 witness: the empty full-train batch ends in the early-exit state with
no inserted rows. -/
theorem C3_witness :
    runModel baseEnv = some .skipped ∧
    runInsertedAnalysis baseEnv = [] ∧ runInsertedSummaries baseEnv = [] :=
  C3_small_batch_early_exit baseEnv (Or.inl (by decide)) (by decide)

/-- C5: per-message persistence is row-at-a-time in batch iteration order;
on the first row whose insertion fails the loop stops immediately: the
attempted rows are exactly the rows before the failing one plus the failing
row itself, whatever valid rows follow. -/
theorem C5_failfast_insertion (env : Env)
    (_hbig : 10 < (candidateBatch env).length)
    (xs : List ARow) (f : ARow) (ys : List ARow)
    (hsplit : analysisRows env = xs ++ f :: ys)
    (hxs : ∀ x ∈ xs, env.msgInsertFails x.msg_id = false)
    (hf : env.msgInsertFails f.msg_id = true) :
    attemptedAnalysis env = xs ++ [f] ∧ insertedAnalysis env = xs := by
  unfold attemptedAnalysis insertedAnalysis
  rw [hsplit, insertLoop_firstFail _ _ _ _ hxs hf]
  exact ⟨rfl, rfl⟩

/-- C5 witness: on `env5` (insertion of the row of message 5 fails) exactly
the first six rows are attempted and the first five inserted; the last five
valid rows are never attempted. -/
theorem C5_witness :
    attemptedAnalysis env5 = (analysisRows env5).take 5 ++ [arow 5] ∧
    insertedAnalysis env5 = (analysisRows env5).take 5 :=
  C5_failfast_insertion env5 (by decide) _ _ ((analysisRows env5).drop 6)
    (by decide) (by decide) (by decide)

/-- C8: re-running in incremental mode on a repo with no message newer than
the cutoff yields an empty candidate batch and therefore no new
`message_analysis` or `message_analysis_summary` rows. -/
theorem C8_rerun_no_new_rows (env : Env)
    (hsum : env.summaryExists = true)
    (hne : env.pastAnalyzedTs ≠ [])
    (hall : ∀ m ∈ env.messages, m.ts ≤ cutoffTs env) :
    candidateBatch env = [] ∧ runModel env = some .skipped ∧
    runInsertedAnalysis env = [] ∧ runInsertedSummaries env = [] := by
  have hft : fullTrain env = false := by
    unfold fullTrain
    rw [hsum]
    rfl
  have hempty : candidateBatch env = [] := by
    unfold candidateBatch
    rw [if_neg (by simp [hft]), List.filter_eq_nil_iff]
    intro m hm
    simp only [decide_eq_true_eq, not_lt]
    exact hall m hm
  have h := runModel_skipped (Or.inr hne) (by rw [hempty]; simp)
  exact ⟨hempty, h, by simp [runInsertedAnalysis, h], by simp [runInsertedSummaries, h]⟩

/-- C8 witness: on `env8` (both messages at or before the cutoff 5) the
candidate batch is empty and nothing is inserted. -/
theorem C8_witness :
    candidateBatch env8 = [] ∧ runModel env8 = some .skipped ∧
    runInsertedAnalysis env8 = [] ∧ runInsertedSummaries env8 = [] :=
  C8_rerun_no_new_rows env8 (by decide) (by decide) (by decide)

/-- Dividing finite values with a nonzero denominator stays finite. -/
theorem PyFloat.div_fin_of_ne (a b : ℚ) (hb : b ≠ 0) :
    PyFloat.div (.fin a) (.fin b) = .fin (a / b) := by
  simp [PyFloat.div, hb]

/-- In every produced sentiment table `Total` is the row-wise sum of the
three per-category count columns. -/
theorem sentiTable_total_eq (env : Env) (w : Int) (b : Int) :
    (sentiTableAll env w).getCol "Total" b =
      (sentiTableAll env w).getCol "Positive" b +
      (sentiTableAll env w).getCol "Negative" b +
      (sentiTableAll env w).getCol "Neutral" b := by
  have hp : (sentiTableAll env w).getCol "Positive" b = ((sentCount env w .pos b : ℕ) : ℚ) :=
    sentiTableAll_getCol_label env w .pos b
  have hn : (sentiTableAll env w).getCol "Negative" b = ((sentCount env w .neg b : ℕ) : ℚ) :=
    sentiTableAll_getCol_label env w .neg b
  have hu : (sentiTableAll env w).getCol "Neutral" b = ((sentCount env w .neu b : ℕ) : ℚ) :=
    sentiTableAll_getCol_label env w .neu b
  rw [sentiTableAll_getCol_total, hp, hn, hu]
  exact sum_over_present (fun l => (sentCount env w l b : ℚ)) (sentPresent env)
    (List.nodup_dedup _) (fun l hl => by
      show ((sentCount env w l b : ℕ) : ℚ) = 0
      rw [sentCount_eq_zero env w l b hl]
      norm_num)

/-- C4: every produced daily and 15-day aggregation table contains all four
sentiment columns and both novelty columns; a category absent from the input
is present as a column of zeros rather than omitted; and `Total` equals the
row-wise sum of the per-category sentiment counts per bin. -/
theorem C4_rectangular_aggregation (env : Env)
    (_hbig : 10 < (candidateBatch env).length) :
    (sentColNames ⊆ (dailySentiTable env).names ∧
      sentColNames ⊆ (senti15Table env).names ∧
      novelColNames ⊆ (dailyNovelTable env).names ∧
      novelColNames ⊆ (novel15Table env).names) ∧
    (∀ l : SLabel, l ∉ sentPresent env → ∀ b : Int,
      (dailySentiTable env).getCol (slabelName l) b = 0 ∧
      (senti15Table env).getCol (slabelName l) b = 0) ∧
    (∀ l : Nat, l = 0 ∨ l = 1 → l ∉ novelPresent env → ∀ b : Int,
      (dailyNovelTable env).getCol (nlabelName l) b = 0 ∧
      (novel15Table env).getCol (nlabelName l) b = 0) ∧
    (∀ b ∈ (dailySentiTable env).index,
      (dailySentiTable env).getCol "Total" b =
        (dailySentiTable env).getCol "Positive" b +
        (dailySentiTable env).getCol "Negative" b +
        (dailySentiTable env).getCol "Neutral" b) ∧
    (∀ b ∈ (senti15Table env).index,
      (senti15Table env).getCol "Total" b =
        (senti15Table env).getCol "Positive" b +
        (senti15Table env).getCol "Negative" b +
        (senti15Table env).getCol "Neutral" b) := by
  refine ⟨⟨sentiTableAll_names env 1, sentiTableAll_names env 15,
    novelTableAll_names env 1, novelTableAll_names env 15⟩, ?_, ?_, ?_, ?_⟩
  · intro l hl b
    constructor
    · rw [show (dailySentiTable env).getCol (slabelName l) b =
        ((sentCount env 1 l b : ℕ) : ℚ) from sentiTableAll_getCol_label env 1 l b,
        sentCount_eq_zero env 1 l b hl]
      norm_num
    · rw [show (senti15Table env).getCol (slabelName l) b =
        ((sentCount env 15 l b : ℕ) : ℚ) from sentiTableAll_getCol_label env 15 l b,
        sentCount_eq_zero env 15 l b hl]
      norm_num
  · intro l hl01 hl b
    constructor
    · rw [show (dailyNovelTable env).getCol (nlabelName l) b =
        ((novelCount env 1 l b : ℕ) : ℚ) from novelTableAll_getCol env 1 l hl01 b,
        novelCount_eq_zero env 1 l b hl]
      norm_num
    · rw [show (novel15Table env).getCol (nlabelName l) b =
        ((novelCount env 15 l b : ℕ) : ℚ) from novelTableAll_getCol env 15 l hl01 b,
        novelCount_eq_zero env 15 l b hl]
      norm_num
  · intro b _
    exact sentiTable_total_eq env 1 b
  · intro b _
    exact sentiTable_total_eq env 15 b

/-- C4 witness: on `env2` (eleven positive-sentiment, non-novel messages)
all expected columns exist, the `Negative` and `Novel` columns are zero, and
`Total` is the row-wise category sum on the (single) populated 15-day bin. -/
theorem C4_witness :
    sentColNames ⊆ (dailySentiTable env2).names ∧
    (senti15Table env2).getCol "Negative" 0 = 0 ∧
    (novel15Table env2).getCol "Novel" 0 = 0 ∧
    (senti15Table env2).getCol "Total" 0 =
      (senti15Table env2).getCol "Positive" 0 +
      (senti15Table env2).getCol "Negative" 0 +
      (senti15Table env2).getCol "Neutral" 0 :=
  ⟨(C4_rectangular_aggregation env2 (by decide)).1.1,
   ((C4_rectangular_aggregation env2 (by decide)).2.1 .neg (by decide) 0).2,
   ((C4_rectangular_aggregation env2 (by decide)).2.2.1 1 (Or.inr rfl) (by decide) 0).2,
   (C4_rectangular_aggregation env2 (by decide)).2.2.2.2 0 (by decide)⟩

/-- C6: the deviation insight of each metric is computed over the full
persisted summary history as `(current - mean) / mean * 100` with `mean`
over all periods but the most recent and `current` the most recent; a zero
historical mean yields a non-finite value, surfaced unchanged in the
payload. -/
theorem C6_deviation_from_history (env : Env)
    (_hbig : 10 < (candidateBatch env).length) :
    (payload env).recent_deviation = deviationInsights env ∧
    deviationInsights env =
      [("Positive", shiftOf ((historyRows env).map (fun r => r.positive_ratio))),
       ("Negative", shiftOf ((historyRows env).map (fun r => r.negative_ratio))),
       ("Novel", shiftOf ((historyRows env).map (fun r => r.novel_count)))] ∧
    (∀ vals : List PyFloat, shiftOf vals =
      PyFloat.mul (PyFloat.div (PyFloat.sub (vals.getLastD .nan)
        (pmean vals.dropLast)) (pmean vals.dropLast)) (.fin 100)) ∧
    (∀ vals : List PyFloat, pmean vals.dropLast = .fin 0 →
      (shiftOf vals).isFinite = false) :=
  ⟨rfl, rfl, fun _ => rfl, shiftOf_not_finite_of_mean_zero⟩

/-- C6 witness: the payload surfaces the deviation dict, and a history of
`[0, 5]` for a metric (historical mean exactly zero) yields a non-finite
shift. -/
theorem C6_witness :
    (payload env2).recent_deviation = deviationInsights env2 ∧
    (shiftOf [.fin 0, .fin 5]).isFinite = false :=
  ⟨(C6_deviation_from_history env2 (by decide)).1,
   (C6_deviation_from_history env2 (by decide)).2.2.2 [.fin 0, .fin 5]
     (by
       have h : ([PyFloat.fin 0, PyFloat.fin 5].dropLast).filter
           (fun x => x ≠ PyFloat.nan) = [PyFloat.fin 0] := by decide
       unfold pmean
       rw [h]
       norm_num [PyFloat.add, PyFloat.div, List.foldl])⟩

/-- C7: the anomaly detector is an isolation forest constructed with 100
estimators, bootstrap disabled and fixed seed 42, fit from scratch on the
full persisted `(positive_ratio, negative_ratio)` history; the reported
anomaly timestamps are exactly the flagged periods inside the insight
window; identical history (and detector) gives identical flags. -/
theorem C7_anomaly_model (env : Env)
    (_hbig : 10 < (candidateBatch env).length) :
    (ifParamsUsed.n_estimators = 100 ∧ ifParamsUsed.max_samples_auto = true ∧
      ifParamsUsed.max_features = 1 ∧ ifParamsUsed.bootstrap = false ∧
      ifParamsUsed.n_jobs = -1 ∧ ifParamsUsed.random_state = 42 ∧
      ifParamsUsed.verbose = 0) ∧
    anomalyPreds env = env.forest ifParamsUsed
      ((historyRows env).map (fun r => (r.positive_ratio, r.negative_ratio))) ∧
    (payload env).sentiment_anomaly_timestamps =
      ((((historyRows env).zip (anomalyPreds env)).filter (fun p => p.2 = -1)).filter
        (fun p => beginDate env ≤ p.1.period)).map (fun p => p.1.period) ∧
    (∀ env' : Env, env'.forest = env.forest → historyRows env' = historyRows env →
      beginDate env' = beginDate env →
      anomalyTimestamps env' = anomalyTimestamps env) := by
  refine ⟨⟨rfl, rfl, rfl, rfl, rfl, rfl, rfl⟩, rfl, rfl, ?_⟩
  intro env' hf hh hb
  unfold anomalyTimestamps anomalyPreds
  rw [hf, hh, hb]

/-- C7 witness: the constructor parameters and the window-filtered flagged
periods, instantiated on `env2`. -/
theorem C7_witness :
    (ifParamsUsed.n_estimators = 100 ∧ ifParamsUsed.bootstrap = false ∧
      ifParamsUsed.random_state = 42) ∧
    (payload env2).sentiment_anomaly_timestamps =
      ((((historyRows env2).zip (anomalyPreds env2)).filter (fun p => p.2 = -1)).filter
        (fun p => beginDate env2 ≤ p.1.period)).map (fun p => p.1.period) :=
  ⟨⟨(C7_anomaly_model env2 (by decide)).1.1,
    (C7_anomaly_model env2 (by decide)).1.2.2.2.1,
    (C7_anomaly_model env2 (by decide)).1.2.2.2.2.2.1⟩,
   (C7_anomaly_model env2 (by decide)).2.2.1⟩

/-- Once the cutoff has reached a message's timestamp, no later incremental
run — however many — ever fetches that message again. -/
theorem never_fetched_aux (msgs : List Msg) (m : Msg) :
    ∀ (n : Nat) (analyzed : List Int), analyzed ≠ [] → m.ts ≤ cutoffOf analyzed →
      m ∉ msgs.filter (fun x => cutoffOf (iterRuns msgs analyzed n) < x.ts)
  | 0, analyzed, _, hle => by
      intro hmem
      rcases List.mem_filter.1 hmem with ⟨_, hp⟩
      rw [decide_eq_true_eq] at hp
      exact absurd hp (not_lt.2 hle)
  | n + 1, analyzed, hne, hle =>
      never_fetched_aux msgs m n (stepAnalyzed msgs analyzed)
        (stepAnalyzed_ne_nil _ hne) (le_trans hle (cutoffOf_le_step _ hne))

/-- C9: the incremental fetch uses a strict inequality, so a message whose
timestamp equals the cutoff is not fetched; and since the cutoff never
decreases across later runs, such an unanalyzed message is skipped by every
subsequent incremental run. -/
theorem C9_exact_timestamp_skipped (env : Env) (m : Msg)
    (_hm : m ∈ env.messages)
    (hft : fullTrain env = false) (hts : m.ts = cutoffTs env) :
    m ∉ candidateBatch env ∧
    (∀ analyzed : List Int, analyzed ≠ [] → m.ts ≤ cutoffOf analyzed →
      ∀ n : Nat, m ∉ env.messages.filter
        (fun x => cutoffOf (iterRuns env.messages analyzed n) < x.ts)) := by
  constructor
  · unfold candidateBatch
    rw [if_neg (by simp [hft])]
    intro hmem
    rcases List.mem_filter.1 hmem with ⟨_, hp⟩
    rw [decide_eq_true_eq] at hp
    rw [hts] at hp
    exact absurd hp (lt_irrefl _)
  · intro analyzed hne hle n
    exact never_fetched_aux env.messages m n analyzed hne hle

/-- C9 witness: on `env9` the message stamped exactly at the cutoff 3 is not
in the candidate batch and is still skipped after five further runs. -/
theorem C9_witness :
    ({ msg_id := 0, ts := 3, text := "" } : Msg) ∉ candidateBatch env9 ∧
    ({ msg_id := 0, ts := 3, text := "" } : Msg) ∉ env9.messages.filter
      (fun x => cutoffOf (iterRuns env9.messages [3] 5) < x.ts) :=
  ⟨(C9_exact_timestamp_skipped env9 _ (by decide) (by decide) (by decide)).1,
   (C9_exact_timestamp_skipped env9 _ (by decide) (by decide) (by decide)).2
     [3] (by decide) (by decide) 5⟩

/-- C10 counterexample: on `env10` the batch spans days 0–40, so the 15-day
bin starting at day 15 lies inside the batch's time range and contains no
message; contrary to the claim, that bin is not materialized: it appears
neither in the 15-day table index nor among the periods of produced or
inserted summary rows. -/
theorem C10_counterexample :
    binOrigin env10 = 0 ∧
    ((sortedBatch env10).getLastD { msg_id := 0, ts := 0, text := "" }).ts = 40 ∧
    (15 : Int) ∉ (senti15Table env10).index ∧
    (30 : Int) ∈ (senti15Table env10).index ∧
    (summaryRows env10).map (fun r => r.period) = [0, 30] ∧
    (15 : Int) ∉ (insertedSummaries env10).map (fun r => r.period) := by
  decide

/-- C10 as amended: the 15-day binning materializes only bins containing at
least one message (empty intermediate bins contribute no row), so every
produced bin has `Total ≥ 1`, its sentiment ratios are finite (never 0/0),
and the summary rows are exactly one per populated bin. -/
theorem C10_amended_nonempty_bins (env : Env)
    (_hbig : 10 < (candidateBatch env).length)
    (b : Int) (hb : b ∈ binsOf env 15) :
    1 ≤ (senti15Table env).getCol "Total" b ∧
    (posRatio env b).isFinite = true ∧
    (negRatio env b).isFinite = true ∧
    (summaryRows env).map (fun r => r.period) = binsOf env 15 := by
  rcases List.mem_map.1 (List.mem_dedup.1 hb) with ⟨m, hm, hbm⟩
  have hr : labelRow env m ∈ labeledRows env := List.mem_map.2 ⟨m, hm, rfl⟩
  have hcount : 1 ≤ sentCount env 15 ((env.senti m).1) b := by
    have hmem : labelRow env m ∈
        (labeledRows env).filter
          (fun r => binStart (binOrigin env) 15 r.msg.ts = b ∧
            r.senti_label = (env.senti m).1) :=
      List.mem_filter.2 ⟨hr, by simp [labelRow, hbm]⟩
    have := List.length_pos.2 (List.ne_nil_of_mem hmem)
    unfold sentCount
    omega
  have hpres : (env.senti m).1 ∈ sentPresent env :=
    List.mem_dedup.2 (List.mem_map.2 ⟨labelRow env m, hr, rfl⟩)
  have htot : 1 ≤ (senti15Table env).getCol "Total" b := by
    rw [show (senti15Table env).getCol "Total" b =
      ((sentPresent env).map (fun l => (sentCount env 15 l b : ℚ))).sum from
      sentiTableAll_getCol_total env 15 b]
    have hx : ((sentCount env 15 ((env.senti m).1) b : ℕ) : ℚ) ∈
        (sentPresent env).map (fun l => (sentCount env 15 l b : ℚ)) :=
      List.mem_map.2 ⟨_, hpres, rfl⟩
    have h1 : (1 : ℚ) ≤ ((sentCount env 15 ((env.senti m).1) b : ℕ) : ℚ) := by
      exact_mod_cast hcount
    refine le_trans h1 (List.single_le_sum (fun x hx' => ?_) _ hx)
    rcases List.mem_map.1 hx' with ⟨l, _, rfl⟩
    positivity
  have hne0 : (senti15Table env).getCol "Total" b ≠ 0 := by
    intro h0
    rw [h0] at htot
    norm_num at htot
  refine ⟨htot, ?_, ?_, ?_⟩
  · unfold posRatio
    rw [PyFloat.div_fin_of_ne _ _ hne0]
    rfl
  · unfold negRatio
    rw [PyFloat.div_fin_of_ne _ _ hne0]
    rfl
  · unfold summaryRows
    rw [List.map_map]
    exact List.map_id'' (fun _ => rfl) _

/-- C10 amended-claim witness: on `env10`, the populated bin starting at day
30 has a positive `Total`, finite ratios, and the summary rows are exactly
the populated bins `[0, 30]`. -/
theorem C10_amended_witness :
    1 ≤ (senti15Table env10).getCol "Total" 30 ∧
    (posRatio env10 30).isFinite = true ∧
    (negRatio env10 30).isFinite = true ∧
    (summaryRows env10).map (fun r => r.period) = binsOf env10 15 :=
  C10_amended_nonempty_bins env10 (by decide) 30 (by decide)
